import Mathlib

/-!
Verification of napari-process-points-and-surfaces against its specification.

This file shallowly embeds the plugin's own code (the module
napari_process_points_and_surfaces/__init__.py): the format-conversion
helpers, the surface/point operations, and the locally implemented
points_to_labels loop.  Numeric values carried by numpy float arrays are
modelled as rationals, integer arrays as integers; Python int() truncation
and numpy's index resolution are modelled explicitly.  Calls into the
wrapped third-party libraries (open3d, vedo, scikit-image) are not code of
this plugin; each such call appears as an explicit function parameter of
the embedded operation, so every theorem is relative to an arbitrary
behaviour of the wrapped routine.
-/

namespace Nppas

/-- A 3D coordinate (one row of an N x 3 float array). -/
abbrev Vec3 := ℚ × ℚ × ℚ

/-- A triangular face: three vertex indices (one row of an N x 3 index array). -/
abbrev Tri := ℕ × ℕ × ℕ

/-- Model of open3d.utility.Vector3dVector: a container of 3D float rows. -/
structure Vector3dVector where
  toList : List Vec3

/-- Model of open3d.utility.Vector3iVector: a container of index triples. -/
structure Vector3iVector where
  toList : List Tri

/-- Model of open3d.utility.DoubleVector: a container of floats. -/
structure DoubleVector where
  toList : List ℚ

/-- Model of open3d.geometry.PointCloud (only the points attribute is used). -/
structure PointCloud where
  points : Vector3dVector

/-- Model of open3d.geometry.TriangleMesh: vertex and triangle containers. -/
structure TriangleMesh where
  vertices : Vector3dVector
  triangles : Vector3iVector

/-- A napari SurfaceData tuple: vertex array, face array, and the optional
per-vertex scalar array (the tuple has either two or three components). -/
structure Surface where
  vertices : List Vec3
  faces : List Tri
  values : Option (List ℚ)

/-- Source to_vector_d: wrap a coordinate array as a Vector3dVector. -/
def to_vector_d (data : List Vec3) : Vector3dVector := ⟨data⟩

/-- Source to_vector_i: wrap a face array as a Vector3iVector. -/
def to_vector_i (data : List Tri) : Vector3iVector := ⟨data⟩

/-- Source to_vector_double: wrap a float list as a DoubleVector. -/
def to_vector_double (data : List ℚ) : DoubleVector := ⟨data⟩

/-- Source to_numpy (np.asarray) applied to a Vector3dVector. -/
def to_numpy (data : Vector3dVector) : List Vec3 := data.toList

/-- Source to_numpy (np.asarray) applied to a Vector3iVector. -/
def to_numpy_i (data : Vector3iVector) : List Tri := data.toList

/-- Source to_mesh: TriangleMesh(to_vector_d(data[0]), to_vector_i(data[1])).
data[0] and data[1] are the vertex and face components of the surface tuple. -/
def to_mesh (data : Surface) : TriangleMesh :=
  ⟨to_vector_d data.vertices, to_vector_i data.faces⟩

/-- Source to_point_cloud: a PointCloud whose points are to_vector_d(data). -/
def to_point_cloud (data : List Vec3) : PointCloud := ⟨to_vector_d data⟩

/-- Source to_surface: (np.asarray(mesh.vertices), np.asarray(mesh.triangles),
np.ones((vertices.shape[0]))). -/
def to_surface (mesh : TriangleMesh) : Surface :=
  ⟨to_numpy mesh.vertices, to_numpy_i mesh.triangles,
    some (List.replicate (to_numpy mesh.vertices).length 1)⟩

/-- Source isotropic_scale_surface: result = list(surface);
result[0] = result[0] * scale_factor; return tuple(result).
The numpy broadcast multiplies every coordinate by the scale factor. -/
def isotropic_scale_surface (surface : Surface) (scale_factor : ℚ) : Surface :=
  { surface with
      vertices := surface.vertices.map
        fun v => (v.1 * scale_factor, v.2.1 * scale_factor, v.2.2 * scale_factor) }

/-- A face is valid for a vertex count n when all three indices are below n. -/
def triValid (n : ℕ) (t : Tri) : Prop := t.1 < n ∧ t.2.1 < n ∧ t.2.2 < n

instance (n : ℕ) (t : Tri) : Decidable (triValid n t) := by
  unfold triValid; infer_instance

/-- Spec invariant on surfaces: face indices are valid indices into the
vertex sequence. -/
def Surface.facesValid (s : Surface) : Prop :=
  ∀ t ∈ s.faces, triValid s.vertices.length t

instance (s : Surface) : Decidable s.facesValid := by
  unfold Surface.facesValid; infer_instance

/-- The corresponding invariant on a library mesh: its triangles index its
vertices. -/
def TriangleMesh.trianglesValid (m : TriangleMesh) : Prop :=
  ∀ t ∈ m.triangles.toList, triValid m.vertices.toList.length t

instance (m : TriangleMesh) : Decidable m.trianglesValid := by
  unfold TriangleMesh.trianglesValid; infer_instance

/-- C4: the format-conversion helpers round-trip: converting a surface to the
library mesh with to_mesh and back with to_surface yields the original vertex
array and the original face array, and to_numpy(to_vector_d(points)) equals
points. -/
theorem conversion_round_trip :
    (∀ (v : List Vec3) (f : List Tri) (w : Option (List ℚ)),
        (to_surface (to_mesh ⟨v, f, w⟩)).vertices = v ∧
        (to_surface (to_mesh ⟨v, f, w⟩)).faces = f)
    ∧ (∀ points_data : List Vec3, to_numpy (to_vector_d points_data) = points_data) :=
  ⟨fun _ _ _ => ⟨rfl, rfl⟩, fun _ => rfl⟩

/-- C10: isotropic_scale_surface multiplies every vertex coordinate by the
scale factor and leaves the face array and the optional per-vertex scalar
array unchanged; with scale factor 1 it returns a surface equal to its
input. -/
theorem isotropic_scale_surface_spec :
    (∀ (s : Surface) (k : ℚ),
        (isotropic_scale_surface s k).vertices =
          s.vertices.map (fun v => (v.1 * k, v.2.1 * k, v.2.2 * k)) ∧
        (isotropic_scale_surface s k).faces = s.faces ∧
        (isotropic_scale_surface s k).values = s.values)
    ∧ (∀ s : Surface, isotropic_scale_surface s 1 = s) := by
  refine ⟨fun s k => ⟨rfl, rfl, rfl⟩, fun s => ?_⟩
  cases s with
  | mk v f w =>
    simp [isotropic_scale_surface]

/-- C3: to_surface establishes the face-validity invariant for every library
mesh whose triangles index its vertices (hence for every operation returning
to_surface of such a mesh), and isotropic_scale_surface preserves the
invariant for every scale factor. -/
theorem surface_ops_preserve_face_validity :
    (∀ m : TriangleMesh, m.trianglesValid → (to_surface m).facesValid)
    ∧ (∀ (s : Surface) (k : ℚ), s.facesValid → (isotropic_scale_surface s k).facesValid) := by
  constructor
  · intro m hm t ht
    exact hm t ht
  · intro s k hs t ht
    have := hs t ht
    simpa [isotropic_scale_surface] using this

/-- Witness for C3 at a concrete one-triangle mesh and surface. -/
theorem surface_ops_preserve_face_validity_witness :
    (to_surface ⟨⟨[(0, 0, 0), (0, 0, 1), (0, 1, 0)]⟩, ⟨[(0, 1, 2)]⟩⟩).facesValid ∧
    (isotropic_scale_surface ⟨[(0, 0, 0), (0, 0, 1), (0, 1, 0)], [(0, 1, 2)], none⟩ 2).facesValid :=
  ⟨surface_ops_preserve_face_validity.1 _ (by decide),
   surface_ops_preserve_face_validity.2 _ 2 (by decide)⟩

/-! Surface-returning open3d-backed operations.  Each wrapped-library
algorithm is an explicit function parameter of the embedded operation. -/

/-- Model of open3d.geometry.SimplificationContraction. -/
inductive SimplificationContraction
  | average
  | quadric

/-- Model of open3d.geometry.KDTreeSearchParamHybrid(radius, max_nn). -/
structure KDTreeSearchParamHybrid where
  radius : ℚ
  max_nn : ℕ

/-- Source convex_hull: mesh = to_mesh(surface);
new_mesh, _ = mesh.compute_convex_hull(); return to_surface(new_mesh). -/
def convex_hull (compute_convex_hull : TriangleMesh → TriangleMesh × List ℕ)
    (surface : Surface) : Surface :=
  let mesh := to_mesh surface
  let new_mesh := (compute_convex_hull mesh).1
  to_surface new_mesh

/-- Source filter_smooth_simple:
to_surface(to_mesh(surface).filter_smooth_simple(number_of_iterations)). -/
def filter_smooth_simple (lib : TriangleMesh → ℕ → TriangleMesh)
    (surface : Surface) (number_of_iterations : ℕ) : Surface :=
  to_surface (lib (to_mesh surface) number_of_iterations)

/-- Source filter_smooth_laplacian:
to_surface(to_mesh(surface).filter_smooth_laplacian(number_of_iterations)). -/
def filter_smooth_laplacian (lib : TriangleMesh → ℕ → TriangleMesh)
    (surface : Surface) (number_of_iterations : ℕ) : Surface :=
  to_surface (lib (to_mesh surface) number_of_iterations)

/-- Source filter_smooth_taubin:
to_surface(to_mesh(surface).filter_smooth_taubin(number_of_iterations)). -/
def filter_smooth_taubin (lib : TriangleMesh → ℕ → TriangleMesh)
    (surface : Surface) (number_of_iterations : ℕ) : Surface :=
  to_surface (lib (to_mesh surface) number_of_iterations)

/-- Source simplify_vertex_clustering:
to_surface(to_mesh(surface).simplify_vertex_clustering(voxel_size,
contraction=SimplificationContraction.Average)). -/
def simplify_vertex_clustering
    (lib : TriangleMesh → ℚ → SimplificationContraction → TriangleMesh)
    (surface : Surface) (voxel_size : ℚ) : Surface :=
  to_surface (lib (to_mesh surface) voxel_size SimplificationContraction.average)

/-- Source simplify_quadric_decimation:
to_surface(to_mesh(surface).simplify_quadric_decimation(target_number_of_triangles)). -/
def simplify_quadric_decimation (lib : TriangleMesh → ℕ → TriangleMesh)
    (surface : Surface) (target_number_of_triangles : ℕ) : Surface :=
  to_surface (lib (to_mesh surface) target_number_of_triangles)

/-- Source subdivide_loop:
to_surface(to_mesh(surface).subdivide_loop(number_of_iterations)). -/
def subdivide_loop (lib : TriangleMesh → ℕ → TriangleMesh)
    (surface : Surface) (number_of_iterations : ℕ) : Surface :=
  to_surface (lib (to_mesh surface) number_of_iterations)

/-- Source points_to_convex_hull_surface:
point_cloud = to_point_cloud(points_data);
mesh_out, _ = point_cloud.compute_convex_hull(); return to_surface(mesh_out). -/
def points_to_convex_hull_surface
    (compute_convex_hull : PointCloud → TriangleMesh × List ℕ)
    (points_data : List Vec3) : Surface :=
  let point_cloud := to_point_cloud points_data
  let mesh_out := (compute_convex_hull point_cloud).1
  to_surface mesh_out

/-- Source surface_from_point_cloud_alpha_shape:
to_surface(TriangleMesh.create_from_point_cloud_alpha_shape(to_point_cloud(points_data), alpha)). -/
def surface_from_point_cloud_alpha_shape
    (create_from_point_cloud_alpha_shape : PointCloud → ℚ → TriangleMesh)
    (points_data : List Vec3) (alpha : ℚ) : Surface :=
  to_surface (create_from_point_cloud_alpha_shape (to_point_cloud points_data) alpha)

/-- Source surface_from_point_cloud_ball_pivoting: builds the point cloud,
calls pcd.estimate_normals(search_param=KDTreeSearchParamHybrid(radius=0.1,
max_nn=30)), selects radii from radius and delta_radius, then calls
TriangleMesh.create_from_point_cloud_ball_pivoting(pcd, to_vector_double(radii))
and converts the result with to_surface. -/
def surface_from_point_cloud_ball_pivoting
    (estimate_normals : PointCloud → KDTreeSearchParamHybrid → PointCloud)
    (create_from_point_cloud_ball_pivoting : PointCloud → DoubleVector → TriangleMesh)
    (points_data : List Vec3) (radius : ℚ) (delta_radius : ℚ) : Surface :=
  let pcd := to_point_cloud points_data
  let pcd2 := estimate_normals pcd ⟨1 / 10, 30⟩
  let radii := if delta_radius = 0 then [radius]
               else [radius - delta_radius, radius, radius + delta_radius]
  to_surface (create_from_point_cloud_ball_pivoting pcd2 (to_vector_double radii))

/-- Source sample_points_uniformly:
to_numpy(to_mesh(surface).sample_points_uniformly(number_of_points).points). -/
def sample_points_uniformly (lib : TriangleMesh → ℕ → PointCloud)
    (surface : Surface) (number_of_points : ℕ) : List Vec3 :=
  let mesh_in := to_mesh surface
  let point_cloud := lib mesh_in number_of_points
  to_numpy point_cloud.points

/-- Source sample_points_poisson_disk:
to_numpy(to_mesh(surface).sample_points_poisson_disk(number_of_points, init_factor).points). -/
def sample_points_poisson_disk (lib : TriangleMesh → ℕ → ℚ → PointCloud)
    (surface : Surface) (number_of_points : ℕ) (init_factor : ℚ) : List Vec3 :=
  let mesh_in := to_mesh surface
  let point_cloud := lib mesh_in number_of_points init_factor
  to_numpy point_cloud.points

/-- Helper: every result of to_surface carries an all-ones scalar array of
the same length as its vertex list. -/
theorem to_surface_values_ones (m : TriangleMesh) :
    (to_surface m).values = some (List.replicate (to_surface m).vertices.length 1) := rfl

/-- C8: every open3d-backed surface-returning operation returns an all-ones
per-vertex scalar array whose length equals the number of returned vertices,
and any scalar array present on the input surface is discarded: the result
does not depend on the input values component. -/
theorem open3d_ops_values_all_ones :
    (∀ lib s, (convex_hull lib s).values
        = some (List.replicate (convex_hull lib s).vertices.length 1))
    ∧ (∀ lib s n, (filter_smooth_simple lib s n).values
        = some (List.replicate (filter_smooth_simple lib s n).vertices.length 1))
    ∧ (∀ lib s n, (filter_smooth_laplacian lib s n).values
        = some (List.replicate (filter_smooth_laplacian lib s n).vertices.length 1))
    ∧ (∀ lib s n, (filter_smooth_taubin lib s n).values
        = some (List.replicate (filter_smooth_taubin lib s n).vertices.length 1))
    ∧ (∀ lib s k, (simplify_vertex_clustering lib s k).values
        = some (List.replicate (simplify_vertex_clustering lib s k).vertices.length 1))
    ∧ (∀ lib s n, (simplify_quadric_decimation lib s n).values
        = some (List.replicate (simplify_quadric_decimation lib s n).vertices.length 1))
    ∧ (∀ lib s n, (subdivide_loop lib s n).values
        = some (List.replicate (subdivide_loop lib s n).vertices.length 1))
    ∧ (∀ lib p, (points_to_convex_hull_surface lib p).values
        = some (List.replicate (points_to_convex_hull_surface lib p).vertices.length 1))
    ∧ (∀ lib p a, (surface_from_point_cloud_alpha_shape lib p a).values
        = some (List.replicate (surface_from_point_cloud_alpha_shape lib p a).vertices.length 1))
    ∧ (∀ libN libB p r d, (surface_from_point_cloud_ball_pivoting libN libB p r d).values
        = some (List.replicate
            (surface_from_point_cloud_ball_pivoting libN libB p r d).vertices.length 1))
    ∧ (∀ lib v f w w', convex_hull lib ⟨v, f, w⟩ = convex_hull lib ⟨v, f, w'⟩)
    ∧ (∀ lib v f w w' n, filter_smooth_simple lib ⟨v, f, w⟩ n = filter_smooth_simple lib ⟨v, f, w'⟩ n)
    ∧ (∀ lib v f w w' n, filter_smooth_laplacian lib ⟨v, f, w⟩ n = filter_smooth_laplacian lib ⟨v, f, w'⟩ n)
    ∧ (∀ lib v f w w' n, filter_smooth_taubin lib ⟨v, f, w⟩ n = filter_smooth_taubin lib ⟨v, f, w'⟩ n)
    ∧ (∀ lib v f w w' k, simplify_vertex_clustering lib ⟨v, f, w⟩ k = simplify_vertex_clustering lib ⟨v, f, w'⟩ k)
    ∧ (∀ lib v f w w' n, simplify_quadric_decimation lib ⟨v, f, w⟩ n = simplify_quadric_decimation lib ⟨v, f, w'⟩ n)
    ∧ (∀ lib v f w w' n, subdivide_loop lib ⟨v, f, w⟩ n = subdivide_loop lib ⟨v, f, w'⟩ n) := by
  repeat' apply And.intro
  all_goals intros
  all_goals rfl

/-! points_to_labels: the one locally implemented algorithm.  An integer nd
array is modelled by its shape and a total content function on canonical
(nonnegative, in-range) multi-indices; Python int() truncation and numpy's
resolution of possibly negative indices are explicit. -/

/-- An integer-valued nd array: shape plus contents at canonical indices. -/
structure NDArray where
  shape : List ℕ
  data : List ℕ → ℤ

/-- np.zeros(shape, dtype=int). -/
def np_zeros (shape : List ℕ) : NDArray := ⟨shape, fun _ => 0⟩

/-- Python int(): truncation toward zero (floor for nonnegative values,
ceiling for negative ones). -/
def pyInt (q : ℚ) : ℤ := if 0 ≤ q then ⌊q⌋ else ⌈q⌉

/-- Evaluation helper: int(n + 0.5) = n for a nonnegative integer-valued
coordinate n. -/
theorem pyInt_intCast_add_half (n : ℤ) (h : 0 ≤ n) : pyInt ((n : ℚ) + 1 / 2) = n := by
  have hn : (0 : ℚ) ≤ (n : ℚ) := by exact_mod_cast h
  unfold pyInt
  rw [if_pos (by linarith)]
  refine Int.floor_eq_iff.mpr ⟨by linarith, ?_⟩
  linarith

/-- The rounded k-th coordinate of a point: int(p[k] + 0.5); none when the
point has no k-th coordinate (the sequence lookup would raise IndexError). -/
def roundedCoord (p : List ℚ) (k : ℕ) : Option ℤ :=
  (p.get? k).map fun q => pyInt (q + 1 / 2)

/-- numpy index resolution along an axis of extent n: an index in [0, n) is
used as is, one in [-n, 0) counts from the end, anything else raises
IndexError (modelled as none). -/
def npIndex (n : ℕ) (i : ℤ) : Option ℕ :=
  if 0 ≤ i ∧ i < (n : ℤ) then some i.toNat
  else if -(n : ℤ) ≤ i ∧ i < 0 then some (i + n).toNat
  else none

/-- Round the k-th coordinate and resolve it against the k-th axis extent. -/
def resolveCoord (shape : List ℕ) (p : List ℚ) (k : ℕ) : Option ℕ :=
  (roundedCoord p k).bind (npIndex (shape.getD k 0))

/-- The canonical pixel written for a point in the 3D branch:
labels_stack[int(p[0]+0.5), int(p[1]+0.5), int(p[2]+0.5)]. -/
def resolve3 (shape : List ℕ) (p : List ℚ) : Option (List ℕ) := do
  let i0 ← resolveCoord shape p 0
  let i1 ← resolveCoord shape p 1
  let i2 ← resolveCoord shape p 2
  pure [i0, i1, i2]

/-- The canonical pixel written for a point in the 2D branch:
labels_stack[int(p[0]+0.5), int(p[1]+0.5)]. -/
def resolve2 (shape : List ℕ) (p : List ℚ) : Option (List ℕ) := do
  let i0 ← resolveCoord shape p 0
  let i1 ← resolveCoord shape p 1
  pure [i0, i1]

/-- The canonical pixel a point addresses, following the dimensionality
branch taken by the source; none outside 2D/3D or on IndexError. -/
def resolvePoint (shape : List ℕ) (p : List ℚ) : Option (List ℕ) :=
  if shape.length = 3 then resolve3 shape p
  else if shape.length = 2 then resolve2 shape p
  else none

/-- The errors points_to_labels can surface: the locally raised
NotImplementedError for unsupported dimensionality, and the IndexError
raised inside the numpy layer on an out-of-range index. -/
inductive PointsToLabelsError
  | notImplemented
  | indexError
deriving DecidableEq

/-- The enumerate loop of points_to_labels: i is the running enumerate
index, d the contents of labels_stack.  Each iteration branches on the
dimensionality, writes i+1 at the pixel the point addresses, or raises. -/
def points_to_labels_go (shape : List ℕ) :
    List (List ℚ) → ℕ → (List ℕ → ℤ) → Except PointsToLabelsError (List ℕ → ℤ)
  | [], _, d => Except.ok d
  | p :: ps, i, d =>
    if shape.length = 3 then
      match resolve3 shape p with
      | some idx => points_to_labels_go shape ps (i + 1) (Function.update d idx ((i : ℤ) + 1))
      | none => Except.error PointsToLabelsError.indexError
    else if shape.length = 2 then
      match resolve2 shape p with
      | some idx => points_to_labels_go shape ps (i + 1) (Function.update d idx ((i : ℤ) + 1))
      | none => Except.error PointsToLabelsError.indexError
    else
      Except.error PointsToLabelsError.notImplemented

/-- Source points_to_labels: labels_stack = np.zeros(as_large_as_image.shape,
dtype=int); the enumerate loop writes i+1 per point; return labels_stack. -/
def points_to_labels (points_data : List (List ℚ)) (as_large_as_image : NDArray) :
    Except PointsToLabelsError NDArray :=
  match points_to_labels_go as_large_as_image.shape points_data 0
      (np_zeros as_large_as_image.shape).data with
  | Except.ok d => Except.ok ⟨as_large_as_image.shape, d⟩
  | Except.error e => Except.error e

/-- The largest enumerate index among points addressing a given pixel
(none when no point addresses it). -/
def lastHit (shape : List ℕ) : List (List ℚ) → List ℕ → Option ℕ
  | [], _ => none
  | p :: ps, idx =>
    match lastHit shape ps idx with
    | some j => some (j + 1)
    | none => if resolvePoint shape p = some idx then some 0 else none

/-- Decidable in-bounds check: the k-th rounded coordinate exists and lies
in [0, extent k), so numpy resolves it to itself without wrapping. -/
def coordInBounds (shape : List ℕ) (p : List ℚ) (k : ℕ) : Bool :=
  match roundedCoord p k with
  | some r => decide (0 ≤ r ∧ r < (shape.getD k 0 : ℤ))
  | none => false

/-- Evaluation helper: the k-th coordinate of a concrete point list with an
integer nonnegative value rounds to that value. -/
theorem roundedCoord_intCast (n : ℤ) {p : List ℚ} {k : ℕ} (h0 : 0 ≤ n)
    (hq : p.get? k = some ((n : ℤ) : ℚ)) : roundedCoord p k = some n := by
  unfold roundedCoord
  rw [hq]
  simp only [Option.map_some']
  rw [pyInt_intCast_add_half n h0]

/-- Evaluation helper: an explicit rounded value inside the axis extent
certifies the in-bounds check. -/
theorem coordInBounds_of_round {shape : List ℕ} {p : List ℚ} {k : ℕ} {r : ℤ}
    (h : roundedCoord p k = some r) (h0 : 0 ≤ r) (h1 : r < (shape.getD k 0 : ℤ)) :
    coordInBounds shape p k = true := by
  unfold coordInBounds
  rw [h]
  exact decide_eq_true ⟨h0, h1⟩

/-- In-bounds coordinates resolve without wrapping. -/
theorem resolveCoord_of_inBounds {shape : List ℕ} {p : List ℚ} {k : ℕ}
    (h : coordInBounds shape p k = true) :
    ∃ r : ℤ, roundedCoord p k = some r ∧ 0 ≤ r ∧ r < (shape.getD k 0 : ℤ) ∧
      resolveCoord shape p k = some r.toNat := by
  unfold coordInBounds at h
  cases hr : roundedCoord p k with
  | none => rw [hr] at h; exact absurd h (by simp)
  | some r =>
    rw [hr] at h
    have hb : 0 ≤ r ∧ r < (shape.getD k 0 : ℤ) := of_decide_eq_true h
    refine ⟨r, rfl, hb.1, hb.2, ?_⟩
    have hnp : npIndex (shape.getD k 0) r = some r.toNat := by
      unfold npIndex
      exact if_pos hb
    unfold resolveCoord
    rw [hr]
    exact hnp

/-- A point whose first three coordinates are in bounds resolves in the 3D
branch. -/
theorem resolve3_isSome {shape : List ℕ} {p : List ℚ}
    (h : ∀ k < 3, coordInBounds shape p k = true) :
    ∃ idx, resolve3 shape p = some idx := by
  obtain ⟨r0, -, -, -, e0⟩ := resolveCoord_of_inBounds (h 0 (by norm_num))
  obtain ⟨r1, -, -, -, e1⟩ := resolveCoord_of_inBounds (h 1 (by norm_num))
  obtain ⟨r2, -, -, -, e2⟩ := resolveCoord_of_inBounds (h 2 (by norm_num))
  exact ⟨[r0.toNat, r1.toNat, r2.toNat], by simp [resolve3, e0, e1, e2]⟩

/-- A point whose first two coordinates are in bounds resolves in the 2D
branch. -/
theorem resolve2_isSome {shape : List ℕ} {p : List ℚ}
    (h : ∀ k < 2, coordInBounds shape p k = true) :
    ∃ idx, resolve2 shape p = some idx := by
  obtain ⟨r0, -, -, -, e0⟩ := resolveCoord_of_inBounds (h 0 (by norm_num))
  obtain ⟨r1, -, -, -, e1⟩ := resolveCoord_of_inBounds (h 1 (by norm_num))
  exact ⟨[r0.toNat, r1.toNat], by simp [resolve2, e0, e1]⟩

/-- Loop invariant of points_to_labels: when the dimensionality is 2 or 3
and every point resolves, the loop succeeds and the final contents hold, at
each pixel, one plus the absolute enumerate index of the last point
addressing it, and the incoming contents elsewhere. -/
theorem points_to_labels_go_ok (shape : List ℕ)
    (hdim : shape.length = 2 ∨ shape.length = 3) :
    ∀ (ps : List (List ℚ)) (i : ℕ) (d : List ℕ → ℤ),
      (∀ p ∈ ps, (resolvePoint shape p).isSome) →
      ∃ d', points_to_labels_go shape ps i d = Except.ok d' ∧
        ∀ idx, d' idx = (match lastHit shape ps idx with
          | some j => (i : ℤ) + (j : ℤ) + 1
          | none => d idx) := by
  intro ps
  induction ps with
  | nil =>
    intro i d _
    exact ⟨d, rfl, fun idx => by simp [lastHit]⟩
  | cons p ps ih =>
    intro i d hres
    have hp : (resolvePoint shape p).isSome := hres p (by simp)
    obtain ⟨idx₀, hidx₀⟩ := Option.isSome_iff_exists.mp hp
    obtain ⟨d', hgo, hd'⟩ :=
      ih (i + 1) (Function.update d idx₀ ((i : ℤ) + 1)) (fun q hq => hres q (by simp [hq]))
    refine ⟨d', ?_, ?_⟩
    · rcases hdim with h2 | h3
      · have h3' : ¬ shape.length = 3 := by omega
        have hr2 : resolve2 shape p = some idx₀ := by
          unfold resolvePoint at hidx₀
          simpa [h2, h3'] using hidx₀
        simpa [points_to_labels_go, h2, h3', hr2] using hgo
      · have hr3 : resolve3 shape p = some idx₀ := by
          unfold resolvePoint at hidx₀
          simpa [h3] using hidx₀
        simpa [points_to_labels_go, h3, hr3] using hgo
    · intro idx
      rw [hd' idx]
      cases hlast : lastHit shape ps idx with
      | some j =>
        simp only [lastHit, hlast]
        push_cast
        ring
      | none =>
        simp only [lastHit, hlast]
        by_cases hidx : idx = idx₀
        · subst hidx
          simp [hidx₀, Function.update]
        · have : resolvePoint shape p ≠ some idx := by
            rw [hidx₀]
            simpa using fun h => hidx h.symm
          simp [this, Function.update, hidx]

/-- When the dimensionality is 2 or 3 the loop never raises the local
NotImplementedError. -/
theorem points_to_labels_go_no_notImplemented (shape : List ℕ)
    (hdim : shape.length = 2 ∨ shape.length = 3) :
    ∀ (ps : List (List ℚ)) (i : ℕ) (d : List ℕ → ℤ),
      points_to_labels_go shape ps i d ≠ Except.error PointsToLabelsError.notImplemented := by
  intro ps
  induction ps with
  | nil => intro i d; simp [points_to_labels_go]
  | cons p ps ih =>
    intro i d
    rcases hdim with h2 | h3
    · have h3' : ¬ shape.length = 3 := by omega
      simp only [points_to_labels_go, h2, h3', if_true, if_false]
      cases hr : resolve2 shape p with
      | some idx => simpa [hr] using ih (i + 1) (Function.update d idx ((i : ℤ) + 1))
      | none => simp [hr]
    · simp only [points_to_labels_go, h3, if_true]
      cases hr : resolve3 shape p with
      | some idx => simpa [hr] using ih (i + 1) (Function.update d idx ((i : ℤ) + 1))
      | none => simp [hr]

/-- A point all of whose rounded coordinates are in bounds resolves in the
branch selected by a 2D or 3D shape. -/
theorem resolvePoint_isSome_of_inBounds {shape : List ℕ} {p : List ℚ}
    (hdim : shape.length = 2 ∨ shape.length = 3)
    (hin : ∀ k < shape.length, coordInBounds shape p k = true) :
    (resolvePoint shape p).isSome := by
  rcases hdim with h2 | h3
  · have h3' : ¬ shape.length = 3 := by omega
    obtain ⟨idx, hidx⟩ := resolve2_isSome (fun k hk => hin k (by omega))
    simp [resolvePoint, h2, h3', hidx]
  · obtain ⟨idx, hidx⟩ := resolve3_isSome (fun k hk => hin k (by omega))
    simp [resolvePoint, h3, hidx]

/-- Shared success lemma: on a 2D or 3D image with all rounded coordinates
in bounds, points_to_labels succeeds, keeps the image shape, and each pixel
holds one plus the largest enumerate index of a point addressing it, zero
when no point does. -/
theorem points_to_labels_ok_of_inBounds (points_data : List (List ℚ)) (img : NDArray)
    (hdim : img.shape.length = 2 ∨ img.shape.length = 3)
    (hin : ∀ p ∈ points_data, ∀ k < img.shape.length, coordInBounds img.shape p k = true) :
    ∃ out, points_to_labels points_data img = Except.ok out ∧
      out.shape = img.shape ∧
      ∀ idx : List ℕ, out.data idx = (match lastHit img.shape points_data idx with
        | some i => (i : ℤ) + 1
        | none => 0) := by
  obtain ⟨d', hgo, hd'⟩ := points_to_labels_go_ok img.shape hdim points_data 0
    (np_zeros img.shape).data
    (fun p hp => resolvePoint_isSome_of_inBounds hdim (hin p hp))
  refine ⟨⟨img.shape, d'⟩, ?_, rfl, ?_⟩
  · unfold points_to_labels
    rw [hgo]
  · intro idx
    have h := hd' idx
    cases hlast : lastHit img.shape points_data idx with
    | some j =>
      rw [hlast] at h
      simpa using h
    | none =>
      rw [hlast] at h
      simpa [np_zeros] using h

/-- points_to_labels surfaces exactly the errors of its loop. -/
theorem points_to_labels_error_iff (points_data : List (List ℚ)) (img : NDArray)
    (e : PointsToLabelsError) :
    points_to_labels points_data img = Except.error e ↔
    points_to_labels_go img.shape points_data 0 (np_zeros img.shape).data
      = Except.error e := by
  unfold points_to_labels
  cases hg : points_to_labels_go img.shape points_data 0 (np_zeros img.shape).data with
  | ok d => simp
  | error e2 => simp

/-- C1 (amended): for every 2D or 3D reference image and every point list
each of whose points has in-bounds rounded coordinates (int(coordinate+0.5)
lies in [0, extent) on every axis), points_to_labels returns an integer
volume of the image shape holding, at the pixel addressed by a point, one
plus the largest index of a point rounding there, and 0 everywhere else. -/
theorem points_to_labels_spec (points_data : List (List ℚ)) (img : NDArray)
    (hdim : img.shape.length = 2 ∨ img.shape.length = 3)
    (hin : ∀ p ∈ points_data, ∀ k < img.shape.length, coordInBounds img.shape p k = true) :
    ∃ out, points_to_labels points_data img = Except.ok out ∧
      out.shape = img.shape ∧
      ∀ idx : List ℕ, out.data idx = (match lastHit img.shape points_data idx with
        | some i => (i : ℤ) + 1
        | none => 0) :=
  points_to_labels_ok_of_inBounds points_data img hdim hin

/-- Witness for C1 at two concrete 2D points in a 2x2 image. -/
theorem points_to_labels_spec_witness :
    ∃ out, points_to_labels [[(0 : ℚ), 1], [(1 : ℚ), 0]] ⟨[2, 2], fun _ => 0⟩
        = Except.ok out ∧
      out.shape = [2, 2] ∧
      ∀ idx : List ℕ,
        out.data idx = (match lastHit [2, 2] [[(0 : ℚ), 1], [(1 : ℚ), 0]] idx with
          | some i => (i : ℤ) + 1
          | none => 0) :=
  points_to_labels_spec _ _ (Or.inl rfl) (by
    intro p hp k hk
    have hk2 : k < 2 := hk
    fin_cases hp <;> interval_cases k
    · exact coordInBounds_of_round (roundedCoord_intCast 0 (by norm_num) (by norm_num))
        (by norm_num) (by decide)
    · exact coordInBounds_of_round (roundedCoord_intCast 1 (by norm_num) (by norm_num))
        (by norm_num) (by decide)
    · exact coordInBounds_of_round (roundedCoord_intCast 1 (by norm_num) (by norm_num))
        (by norm_num) (by decide)
    · exact coordInBounds_of_round (roundedCoord_intCast 0 (by norm_num) (by norm_num))
        (by norm_num) (by decide))

/-- C1 as stated fails: for the single point (5, 5) and a 2x2 reference
image the rounded coordinates are out of range, and points_to_labels raises
the numpy IndexError instead of returning a volume. -/
theorem points_to_labels_spec_counterexample :
    points_to_labels [[(5 : ℚ), 5]] ⟨[2, 2], fun _ => 0⟩
      = Except.error PointsToLabelsError.indexError := by
  have h0 : roundedCoord [(5 : ℚ), 5] 0 = some 5 :=
    roundedCoord_intCast 5 (by norm_num) (by norm_num)
  have hrc : resolveCoord [2, 2] [(5 : ℚ), 5] 0 = none := by
    unfold resolveCoord
    rw [h0]
    simp [npIndex]
  have hr2 : resolve2 [2, 2] [(5 : ℚ), 5] = none := by
    unfold resolve2
    rw [hrc]
    rfl
  rw [points_to_labels_error_iff]
  unfold points_to_labels_go
  simp [hr2]

/-- C2 (amended): points_to_labels raises the local NotImplementedError
exactly when the image dimensionality is neither 2 nor 3 AND the point list
is nonempty (an empty loop never reaches the raise); on a 2D or 3D image
with in-bounds rounded coordinates it raises nothing; and the only other
error it can surface is the IndexError originating in the numpy layer. -/
theorem points_to_labels_error_conditions (points_data : List (List ℚ)) (img : NDArray) :
    (points_to_labels points_data img = Except.error PointsToLabelsError.notImplemented
      ↔ (img.shape.length ≠ 2 ∧ img.shape.length ≠ 3 ∧ points_data ≠ []))
    ∧ ((img.shape.length = 2 ∨ img.shape.length = 3) →
        (∀ p ∈ points_data, ∀ k < img.shape.length, coordInBounds img.shape p k = true) →
        ∃ out, points_to_labels points_data img = Except.ok out)
    ∧ (∀ e, points_to_labels points_data img = Except.error e →
        e = PointsToLabelsError.notImplemented ∨ e = PointsToLabelsError.indexError) := by
  refine ⟨⟨?_, ?_⟩, ?_, ?_⟩
  · intro herr
    have hgo := (points_to_labels_error_iff points_data img _).mp herr
    have hd2 : img.shape.length ≠ 2 := by
      intro h2
      exact absurd hgo (points_to_labels_go_no_notImplemented img.shape (Or.inl h2) _ _ _)
    have hd3 : img.shape.length ≠ 3 := by
      intro h3
      exact absurd hgo (points_to_labels_go_no_notImplemented img.shape (Or.inr h3) _ _ _)
    refine ⟨hd2, hd3, ?_⟩
    intro hnil
    rw [hnil] at hgo
    exact absurd hgo (by simp [points_to_labels_go])
  · rintro ⟨h2, h3, hne⟩
    refine (points_to_labels_error_iff points_data img _).mpr ?_
    cases points_data with
    | nil => exact absurd rfl hne
    | cons p ps => simp [points_to_labels_go, h2, h3]
  · intro hdim hin
    obtain ⟨out, hout, -, -⟩ := points_to_labels_ok_of_inBounds points_data img hdim hin
    exact ⟨out, hout⟩
  · intro e _
    cases e
    · exact Or.inl rfl
    · exact Or.inr rfl

/-- Witness for C2: a nonempty in-bounds 2D call succeeds, and the
error-characterisation applies to it vacuously. -/
theorem points_to_labels_error_conditions_witness :
    ∃ out, points_to_labels [[(0 : ℚ), 1]] ⟨[2, 2], fun _ => 0⟩ = Except.ok out :=
  (points_to_labels_error_conditions [[(0 : ℚ), 1]] ⟨[2, 2], fun _ => 0⟩).2.1
    (Or.inl rfl)
    (by
      intro p hp k hk
      have hk2 : k < 2 := hk
      fin_cases hp
      interval_cases k
      · exact coordInBounds_of_round (roundedCoord_intCast 0 (by norm_num) (by norm_num))
          (by norm_num) (by decide)
      · exact coordInBounds_of_round (roundedCoord_intCast 1 (by norm_num) (by norm_num))
          (by norm_num) (by decide))

/-- C2 as stated fails: a 1D reference image with an empty point list
raises nothing at all, although 1 is not a supported dimensionality; the
raise statement sits inside the loop over points. -/
theorem points_to_labels_error_conditions_counterexample :
    points_to_labels ([] : List (List ℚ)) ⟨[5], fun _ => 0⟩
      = Except.ok ⟨[5], fun _ => 0⟩ := rfl

/-! label_to_surface and largest_label_to_surface.  The scikit-image calls
(marching_cubes, regionprops) are wrapped-library parameters; np.argmax and
the list indexing are executed locally and modelled exactly. -/

/-- A boolean nd array: the mask labels == label_id. -/
structure BoolArray where
  shape : List ℕ
  data : List ℕ → Bool

/-- The quadruple returned by skimage.measure.marching_cubes. -/
structure MarchingCubesResult where
  vertices : List Vec3
  faces : List Tri
  normals : List Vec3
  values : List ℚ

/-- One entry of skimage.measure.regionprops: the region's label and area. -/
structure RegionProperties where
  label : ℤ
  area : ℕ

/-- Source label_to_surface: binary = np.asarray(labels == label_id);
vertices, faces, normals, values = marching_cubes(binary, 0);
return (vertices, faces, values). -/
def label_to_surface (marching_cubes : BoolArray → ℚ → MarchingCubesResult)
    (labels : NDArray) (label_id : ℤ) : Surface :=
  let binary : BoolArray := ⟨labels.shape, fun idx => decide (labels.data idx = label_id)⟩
  let r := marching_cubes binary 0
  ⟨r.vertices, r.faces, some r.values⟩

/-- np.argmax: the index of the first maximal entry of the list. -/
def np_argmax : List ℕ → ℕ
  | [] => 0
  | [_] => 0
  | x :: y :: xs =>
    let j := np_argmax (y :: xs)
    if x < (y :: xs).getD j 0 then j + 1 else 0

/-- np.argmax of a nonempty list is a valid index. -/
theorem np_argmax_lt : ∀ l : List ℕ, l ≠ [] → np_argmax l < l.length := by
  intro l
  induction l with
  | nil => intro h; exact absurd rfl h
  | cons x xs ih =>
    intro _
    cases xs with
    | nil => simp [np_argmax]
    | cons y ys =>
      have h1 := ih (by simp)
      simp only [List.length_cons] at h1 ⊢
      simp only [np_argmax]
      by_cases hx : x < (y :: ys).getD (np_argmax (y :: ys)) 0
      · rw [if_pos hx]
        omega
      · rw [if_neg hx]
        omega

/-- The entry at np.argmax dominates every entry of the list. -/
theorem np_argmax_is_max :
    ∀ (l : List ℕ) (j : ℕ), j < l.length → l.getD j 0 ≤ l.getD (np_argmax l) 0 := by
  intro l
  induction l with
  | nil => intro j hj; exact absurd hj (by simp)
  | cons x xs ih =>
    intro j hj
    cases xs with
    | nil =>
      have : j = 0 := by simpa using hj
      subst this
      simp [np_argmax]
    | cons y ys =>
      simp only [np_argmax]
      by_cases hx : x < (y :: ys).getD (np_argmax (y :: ys)) 0
      · rw [if_pos hx]
        cases j with
        | zero =>
          simpa [List.getD_cons_zero, List.getD_cons_succ] using le_of_lt hx
        | succ k =>
          simpa [List.getD_cons_succ] using ih k (by simpa using hj)
      · rw [if_neg hx]
        cases j with
        | zero => simp
        | succ k =>
          have h1 := ih k (by simpa using hj)
          have h2 : (y :: ys).getD (np_argmax (y :: ys)) 0 ≤ x := le_of_not_lt hx
          simpa [List.getD_cons_succ, List.getD_cons_zero] using le_trans h1 h2

/-- Source largest_label_to_surface: statistics = regionprops(labels);
label_index = np.argmax([r.area for r in statistics]);
labels_list = [r.label for r in statistics];
label = labels_list[label_index]; return label_to_surface(labels, label). -/
def largest_label_to_surface (regionprops : NDArray → List RegionProperties)
    (marching_cubes : BoolArray → ℚ → MarchingCubesResult) (labels : NDArray) : Surface :=
  let statistics := regionprops labels
  let label_index := np_argmax (statistics.map RegionProperties.area)
  let labels_list := statistics.map RegionProperties.label
  let label := labels_list.getD label_index 0
  label_to_surface marching_cubes labels label

/-- getD below the length commutes with map. -/
theorem getD_map_lt {α β : Type} (f : α → β) (d : β) :
    ∀ (l : List α) (j : ℕ) (h : j < l.length), (l.map f).getD j d = f (l.get ⟨j, h⟩) := by
  intro l
  induction l with
  | nil => intro j h; exact absurd h (by simp)
  | cons a l ih =>
    intro j h
    cases j with
    | zero => rfl
    | succ k => exact ih k (by simpa using h)

/-- C9: for every label image whose regionprops list is nonempty,
largest_label_to_surface equals label_to_surface applied to the label of a
region of maximal area among the image's regions. -/
theorem largest_label_to_surface_spec
    (regionprops : NDArray → List RegionProperties)
    (marching_cubes : BoolArray → ℚ → MarchingCubesResult)
    (labels : NDArray)
    (hne : regionprops labels ≠ []) :
    ∃ r ∈ regionprops labels,
      (∀ s ∈ regionprops labels, s.area ≤ r.area) ∧
      largest_label_to_surface regionprops marching_cubes labels
        = label_to_surface marching_cubes labels r.label := by
  have hlen : np_argmax ((regionprops labels).map RegionProperties.area)
      < (regionprops labels).length := by
    have := np_argmax_lt ((regionprops labels).map RegionProperties.area)
      (by simpa using hne)
    simpa using this
  refine ⟨(regionprops labels).get ⟨_, hlen⟩, List.get_mem _ _ _, ?_, ?_⟩
  · intro s hs
    obtain ⟨⟨j, hj⟩, rfl⟩ := List.mem_iff_get.mp hs
    have harg := np_argmax_is_max ((regionprops labels).map RegionProperties.area) j
      (by simpa using hj)
    rw [getD_map_lt RegionProperties.area 0 _ j hj] at harg
    rw [getD_map_lt RegionProperties.area 0 _ _ hlen] at harg
    exact harg
  · show label_to_surface marching_cubes labels
        ((List.map RegionProperties.label (regionprops labels)).getD
          (np_argmax (List.map RegionProperties.area (regionprops labels))) 0) = _
    rw [getD_map_lt RegionProperties.label 0 _ _ hlen]

/-- Witness for C9 at a concrete two-region regionprops table. -/
theorem largest_label_to_surface_spec_witness :
    ∃ r ∈ ([⟨1, 4⟩, ⟨2, 9⟩] : List RegionProperties),
      (∀ s ∈ ([⟨1, 4⟩, ⟨2, 9⟩] : List RegionProperties), s.area ≤ r.area) ∧
      largest_label_to_surface (fun _ => [⟨1, 4⟩, ⟨2, 9⟩])
          (fun _ _ => ⟨[], [], [], []⟩) ⟨[2, 2], fun _ => 0⟩
        = label_to_surface (fun _ _ => ⟨[], [], [], []⟩) ⟨[2, 2], fun _ => 0⟩ r.label :=
  largest_label_to_surface_spec (fun _ => [⟨1, 4⟩, ⟨2, 9⟩]) (fun _ _ => ⟨[], [], [], []⟩)
    ⟨[2, 2], fun _ => 0⟩ (List.cons_ne_nil _ _)

/-! Adapter-shape analysis for C7: each embedded operation is paired with
the statically known sequence of wrapped-library ALGORITHM invocations it
performs (pure data-structure conversions such as Vector3dVector,
TriangleMesh and PointCloud construction are conversions, not algorithm
invocations, per the spec's own distinction). -/

/-- The wrapped-library algorithm invocations appearing in the plugin. -/
inductive LibraryCall
  | estimateNormals
  | createFromPointCloudBallPivoting
  | computeConvexHull
deriving DecidableEq

/-- surface_from_point_cloud_ball_pivoting together with the sequence of
library algorithms it invokes: pcd.estimate_normals(...) followed by
TriangleMesh.create_from_point_cloud_ball_pivoting(...). -/
def surface_from_point_cloud_ball_pivoting_tr
    (estimate_normals : PointCloud → KDTreeSearchParamHybrid → PointCloud)
    (create_from_point_cloud_ball_pivoting : PointCloud → DoubleVector → TriangleMesh)
    (points_data : List Vec3) (radius : ℚ) (delta_radius : ℚ) :
    Surface × List LibraryCall :=
  (surface_from_point_cloud_ball_pivoting estimate_normals
      create_from_point_cloud_ball_pivoting points_data radius delta_radius,
   [LibraryCall.estimateNormals, LibraryCall.createFromPointCloudBallPivoting])

/-- convex_hull together with its single library invocation
mesh.compute_convex_hull(). -/
def convex_hull_tr (compute_convex_hull : TriangleMesh → TriangleMesh × List ℕ)
    (surface : Surface) : Surface × List LibraryCall :=
  (convex_hull compute_convex_hull surface, [LibraryCall.computeConvexHull])

/-- points_to_labels together with its library invocations: none at all;
the zero volume and the pixel-marking loop are implemented locally. -/
def points_to_labels_tr (points_data : List (List ℚ)) (as_large_as_image : NDArray) :
    Except PointsToLabelsError NDArray × List LibraryCall :=
  (points_to_labels points_data as_large_as_image, [])

/-- C7 (amended): convex_hull has the convert / one-library-call / convert
form, but surface_from_point_cloud_ball_pivoting invokes two library
algorithms (a preparatory normal estimation and then the ball-pivoting
reconstruction), and points_to_labels invokes no wrapped-library algorithm,
implementing its loop locally. -/
theorem adapter_shape_spec :
    (∀ hull s, (convex_hull_tr hull s).2.length = 1 ∧
      (convex_hull_tr hull s).1 = to_surface (hull (to_mesh s)).1)
    ∧ (∀ estN bp p r d,
        (surface_from_point_cloud_ball_pivoting_tr estN bp p r d).2
          = [LibraryCall.estimateNormals, LibraryCall.createFromPointCloudBallPivoting] ∧
        (surface_from_point_cloud_ball_pivoting_tr estN bp p r d).1
          = to_surface (bp (estN (to_point_cloud p) ⟨1 / 10, 30⟩)
              (to_vector_double (if d = 0 then [r] else [r - d, r, r + d]))))
    ∧ (∀ p img, (points_to_labels_tr p img).2 = []) :=
  ⟨fun _ _ => ⟨rfl, rfl⟩, fun _ _ _ _ _ => ⟨rfl, rfl⟩, fun _ _ => rfl⟩

/-- C7 as stated fails: at the empty point cloud with radius 5 (and with
any library behaviour, here trivial stand-ins), ball pivoting performs two
wrapped-library algorithm invocations, not exactly one, and points_to_labels
performs none. -/
theorem adapter_shape_counterexample :
    (surface_from_point_cloud_ball_pivoting_tr (fun c _ => c) (fun _ _ => ⟨⟨[]⟩, ⟨[]⟩⟩)
        [] 5 0).2.length ≠ 1 ∧
    (points_to_labels_tr [] ⟨[2, 2], fun _ => 0⟩).2.length ≠ 1 :=
  ⟨by decide, by decide⟩

/-! Heap model for the frame claims: numpy arrays live behind references;
allocation (np.zeros, np.zeros_like, arithmetic results) creates a fresh
reference, and the only in-place writes of the plugin are the pixel
assignments of points_to_labels and the slice assignment of
surface_to_binary_volume, both into the freshly allocated output array. -/

/-- A rational-valued nd array living on the heap (float and int arrays
are both carried as rationals here; integrality is treated in the pure
model above). -/
structure QArray where
  shape : List ℕ
  data : List ℕ → ℚ

/-- A heap of numpy arrays: allocation counter plus store. -/
structure Heap where
  next : ℕ
  store : ℕ → QArray

/-- Allocate a fresh array, returning its reference and the grown heap. -/
def Heap.alloc (h : Heap) (a : QArray) : ℕ × Heap :=
  (h.next, ⟨h.next + 1, fun r => if r = h.next then a else h.store r⟩)

/-- Update in place the array behind a reference. -/
def Heap.modifyRef (h : Heap) (r : ℕ) (f : QArray → QArray) : Heap :=
  ⟨h.next, fun q => if q = r then f (h.store q) else h.store q⟩

/-- A single element write a[idx] = v. -/
def QArray.write (a : QArray) (idx : List ℕ) (v : ℚ) : QArray :=
  ⟨a.shape, Function.update a.data idx v⟩

theorem alloc_fst (h : Heap) (a : QArray) : (h.alloc a).1 = h.next := rfl

theorem alloc_next (h : Heap) (a : QArray) : ((h.alloc a).2).next = h.next + 1 := rfl

theorem alloc_store_self (h : Heap) (a : QArray) :
    ((h.alloc a).2).store h.next = a := by
  simp [Heap.alloc]

theorem alloc_store_ne (h : Heap) (a : QArray) {q : ℕ} (hq : q ≠ h.next) :
    ((h.alloc a).2).store q = h.store q := by
  simp [Heap.alloc, hq]

theorem modifyRef_next (h : Heap) (r : ℕ) (f : QArray → QArray) :
    (h.modifyRef r f).next = h.next := rfl

theorem modifyRef_store_self (h : Heap) (r : ℕ) (f : QArray → QArray) :
    (h.modifyRef r f).store r = f (h.store r) := by
  simp [Heap.modifyRef]

theorem modifyRef_store_ne (h : Heap) (r : ℕ) (f : QArray → QArray) {q : ℕ}
    (hq : q ≠ r) : (h.modifyRef r f).store q = h.store q := by
  simp [Heap.modifyRef, hq]

/-- The rows of an N x d coordinate array: iteration over points_data. -/
def rowsOf (a : QArray) : List (List ℚ) :=
  (List.range (a.shape.getD 0 0)).map fun i =>
    (List.range (a.shape.getD 1 0)).map fun k => a.data [i, k]

/-- The enumerate loop of points_to_labels in the heap model: the pixel
assignments write through the destination reference; the heap at the time
of an error is returned alongside the error. -/
def points_to_labels_go_st (shape : List ℕ) (dst : ℕ) :
    List (List ℚ) → ℕ → Heap → Option PointsToLabelsError × Heap
  | [], _, h => (none, h)
  | p :: ps, i, h =>
    if shape.length = 3 then
      match resolve3 shape p with
      | some idx =>
        points_to_labels_go_st shape dst ps (i + 1)
          (h.modifyRef dst (fun a => a.write idx ((i : ℚ) + 1)))
      | none => (some PointsToLabelsError.indexError, h)
    else if shape.length = 2 then
      match resolve2 shape p with
      | some idx =>
        points_to_labels_go_st shape dst ps (i + 1)
          (h.modifyRef dst (fun a => a.write idx ((i : ℚ) + 1)))
      | none => (some PointsToLabelsError.indexError, h)
    else
      (some PointsToLabelsError.notImplemented, h)

/-- points_to_labels in the heap model: reads the reference image's shape
and the point rows, allocates the zero volume fresh, runs the loop writing
into it, and returns (error option, result reference, final heap). -/
def points_to_labels_st (pRef iRef : ℕ) (h : Heap) :
    Option PointsToLabelsError × ℕ × Heap :=
  let shape := (h.store iRef).shape
  let dh := h.alloc ⟨shape, fun _ => 0⟩
  let points_data := rowsOf (h.store pRef)
  let eh := points_to_labels_go_st shape dh.1 points_data 0 dh.2
  (eh.1, dh.1, eh.2)

/-- isotropic_scale_surface in the heap model: the numpy multiplication
result[0] * scale_factor allocates a fresh array; the face reference and
the optional scalar reference are returned unchanged in a fresh tuple. -/
def isotropic_scale_surface_st (vRef fRef : ℕ) (sRef : Option ℕ) (scale_factor : ℚ)
    (h : Heap) : (ℕ × ℕ × Option ℕ) × Heap :=
  let v := h.store vRef
  let nh := h.alloc ⟨v.shape, fun idx => v.data idx * scale_factor⟩
  ((nh.1, fRef, sRef), nh.2)

/-- One coordinate column of an N x 3 vertex array. -/
def columnQ (a : QArray) (k : ℕ) : List ℚ :=
  (List.range (a.shape.getD 0 0)).map fun i => a.data [i, k]

/-- np.min over the listed values (meaningful on nonempty input). -/
def np_min (l : List ℚ) : ℚ := l.foldl min (l.headD 0)

/-- np.max over the listed values (meaningful on nonempty input). -/
def np_max (l : List ℚ) : ℚ := l.foldl max (l.headD 0)

/-- numpy slice assignment a[l0:r0, l1:r1, l2:r2] = b on a 3D array:
positions inside the box take the values of b shifted by the lower corner,
every other position keeps its value. -/
def sliceAssign (a : QArray) (lo hi : List ℤ) (b : QArray) : QArray :=
  ⟨a.shape, fun idx =>
    if idx.length = 3 ∧ ∀ k < 3,
        lo.getD k 0 ≤ (idx.getD k 0 : ℤ) ∧ (idx.getD k 0 : ℤ) < hi.getD k 0
    then b.data ((List.range 3).map fun k => ((idx.getD k 0 : ℤ) - lo.getD k 0).toNat)
    else a.data idx⟩

/-- Source surface_to_binary_volume in the heap model: the vedo mesh keeps
the vertex coordinates (my_mesh.points()); the bounding box is the
per-column min and max cast to int; binary_image = np.zeros_like(...) is a
fresh allocation; the binarize() result (wrapped-library value, the
parameter) is slice-assigned into it; the fresh volume is returned. -/
def surface_to_binary_volume_st (binarize : QArray → QArray → QArray)
    (vRef fRef iRef : ℕ) (h : Heap) : ℕ × Heap :=
  let vertices := h.store vRef
  let boundaries_l := (List.range 3).map fun k => pyInt (np_min (columnQ vertices k))
  let boundaries_r := (List.range 3).map fun k => pyInt (np_max (columnQ vertices k))
  let dh := h.alloc ⟨(h.store iRef).shape, fun _ => 0⟩
  let b := binarize (h.store vRef) (h.store fRef)
  let h2 := dh.2.modifyRef dh.1 (fun a => sliceAssign a boundaries_l boundaries_r b)
  (dh.1, h2)

/-- Unfolding surface_to_binary_volume_st to its projections. -/
theorem surface_to_binary_volume_st_eq (bin : QArray → QArray → QArray)
    (vRef fRef iRef : ℕ) (h : Heap) :
    surface_to_binary_volume_st bin vRef fRef iRef h
      = (h.next,
         ((h.alloc ⟨(h.store iRef).shape, fun _ => 0⟩).2).modifyRef h.next
           (fun a => sliceAssign a
             ((List.range 3).map fun k => pyInt (np_min (columnQ (h.store vRef) k)))
             ((List.range 3).map fun k => pyInt (np_max (columnQ (h.store vRef) k)))
             (bin (h.store vRef) (h.store fRef)))) := rfl

/-- The loop writes only through the destination reference. -/
theorem go_st_store_ne (shape : List ℕ) (dst : ℕ) :
    ∀ (ps : List (List ℚ)) (i : ℕ) (h : Heap) (q : ℕ), q ≠ dst →
      ((points_to_labels_go_st shape dst ps i h).2).store q = h.store q := by
  intro ps
  induction ps with
  | nil => intro i h q _; rfl
  | cons p ps ih =>
    intro i h q hq
    simp only [points_to_labels_go_st]
    by_cases h3 : shape.length = 3
    · rw [if_pos h3]
      cases hr : resolve3 shape p with
      | some idx =>
        dsimp only
        rw [ih (i + 1) _ q hq, modifyRef_store_ne _ _ _ hq]
      | none => rfl
    · rw [if_neg h3]
      by_cases h2 : shape.length = 2
      · rw [if_pos h2]
        cases hr : resolve2 shape p with
        | some idx =>
          dsimp only
          rw [ih (i + 1) _ q hq, modifyRef_store_ne _ _ _ hq]
        | none => rfl
      · rw [if_neg h2]

/-- The loop does not allocate. -/
theorem go_st_next (shape : List ℕ) (dst : ℕ) :
    ∀ (ps : List (List ℚ)) (i : ℕ) (h : Heap),
      ((points_to_labels_go_st shape dst ps i h).2).next = h.next := by
  intro ps
  induction ps with
  | nil => intro i h; rfl
  | cons p ps ih =>
    intro i h
    simp only [points_to_labels_go_st]
    by_cases h3 : shape.length = 3
    · rw [if_pos h3]
      cases hr : resolve3 shape p with
      | some idx =>
        dsimp only
        rw [ih (i + 1) _, modifyRef_next]
      | none => rfl
    · rw [if_neg h3]
      by_cases h2 : shape.length = 2
      · rw [if_pos h2]
        cases hr : resolve2 shape p with
        | some idx =>
          dsimp only
          rw [ih (i + 1) _, modifyRef_next]
        | none => rfl
      · rw [if_neg h2]

/-- The loop's error outcome and the destination's final content depend
only on shape, points, and the destination's initial content. -/
theorem go_st_congr (shape : List ℕ) :
    ∀ (ps : List (List ℚ)) (i : ℕ) (d₁ d₂ : ℕ) (hA hB : Heap),
      hA.store d₁ = hB.store d₂ →
      (points_to_labels_go_st shape d₁ ps i hA).1
        = (points_to_labels_go_st shape d₂ ps i hB).1 ∧
      ((points_to_labels_go_st shape d₁ ps i hA).2).store d₁
        = ((points_to_labels_go_st shape d₂ ps i hB).2).store d₂ := by
  intro ps
  induction ps with
  | nil => intro i d₁ d₂ hA hB hst; exact ⟨rfl, hst⟩
  | cons p ps ih =>
    intro i d₁ d₂ hA hB hst
    simp only [points_to_labels_go_st]
    by_cases h3 : shape.length = 3
    · rw [if_pos h3, if_pos h3]
      cases hr : resolve3 shape p with
      | some idx =>
        dsimp only
        exact ih (i + 1) d₁ d₂ _ _
          (by rw [modifyRef_store_self, modifyRef_store_self, hst])
      | none => exact ⟨rfl, hst⟩
    · rw [if_neg h3, if_neg h3]
      by_cases h2 : shape.length = 2
      · rw [if_pos h2, if_pos h2]
        cases hr : resolve2 shape p with
        | some idx =>
          dsimp only
          exact ih (i + 1) d₁ d₂ _ _
            (by rw [modifyRef_store_self, modifyRef_store_self, hst])
        | none => exact ⟨rfl, hst⟩
      · rw [if_neg h2, if_neg h2]
        exact ⟨rfl, hst⟩

/-- Unfolding points_to_labels_st to its projections. -/
theorem points_to_labels_st_eq (pRef iRef : ℕ) (h : Heap) :
    points_to_labels_st pRef iRef h
      = ((points_to_labels_go_st (h.store iRef).shape h.next (rowsOf (h.store pRef)) 0
            ((h.alloc ⟨(h.store iRef).shape, fun _ => 0⟩).2)).1,
         h.next,
         (points_to_labels_go_st (h.store iRef).shape h.next (rowsOf (h.store pRef)) 0
            ((h.alloc ⟨(h.store iRef).shape, fun _ => 0⟩).2)).2) := rfl

/-- points_to_labels_st leaves every previously allocated array unchanged. -/
theorem points_to_labels_st_frame (pRef iRef : ℕ) (h : Heap) (q : ℕ)
    (hq : q < h.next) :
    ((points_to_labels_st pRef iRef h).2.2).store q = h.store q := by
  rw [points_to_labels_st_eq]
  have hne : q ≠ h.next := by omega
  rw [go_st_store_ne _ _ _ _ _ _ hne, alloc_store_ne _ _ hne]

/-- points_to_labels_st returns the fresh reference and allocates once. -/
theorem points_to_labels_st_next (pRef iRef : ℕ) (h : Heap) :
    ((points_to_labels_st pRef iRef h).2.2).next = h.next + 1 := by
  rw [points_to_labels_st_eq]
  show ((points_to_labels_go_st _ _ _ _ _).2).next = h.next + 1
  rw [go_st_next, alloc_next]

/-- C5: no operation mutates its inputs.  In the heap model,
points_to_labels, isotropic_scale_surface and surface_to_binary_volume
each return a freshly allocated reference (the allocation counter, distinct
from every input reference) and leave the content of every previously
allocated array, in particular every input array, unchanged - on success
and on error paths alike. -/
theorem operations_do_not_mutate_inputs :
    (∀ (pRef iRef : ℕ) (h : Heap), pRef < h.next → iRef < h.next →
      (points_to_labels_st pRef iRef h).2.1 = h.next ∧
      (points_to_labels_st pRef iRef h).2.1 ≠ pRef ∧
      (points_to_labels_st pRef iRef h).2.1 ≠ iRef ∧
      ∀ q < h.next, ((points_to_labels_st pRef iRef h).2.2).store q = h.store q)
    ∧ (∀ (vRef fRef : ℕ) (sRef : Option ℕ) (k : ℚ) (h : Heap),
        vRef < h.next → fRef < h.next →
      (isotropic_scale_surface_st vRef fRef sRef k h).1.1 = h.next ∧
      (isotropic_scale_surface_st vRef fRef sRef k h).1.1 ≠ vRef ∧
      ∀ q < h.next, ((isotropic_scale_surface_st vRef fRef sRef k h).2).store q = h.store q)
    ∧ (∀ (bin : QArray → QArray → QArray) (vRef fRef iRef : ℕ) (h : Heap),
        vRef < h.next → fRef < h.next → iRef < h.next →
      (surface_to_binary_volume_st bin vRef fRef iRef h).1 = h.next ∧
      (surface_to_binary_volume_st bin vRef fRef iRef h).1 ≠ vRef ∧
      (surface_to_binary_volume_st bin vRef fRef iRef h).1 ≠ iRef ∧
      ∀ q < h.next,
        ((surface_to_binary_volume_st bin vRef fRef iRef h).2).store q = h.store q) := by
  refine ⟨?_, ?_, ?_⟩
  · intro pRef iRef h hp hi
    refine ⟨rfl, ?_, ?_, fun q hq => points_to_labels_st_frame pRef iRef h q hq⟩
    · show h.next ≠ pRef
      omega
    · show h.next ≠ iRef
      omega
  · intro vRef fRef sRef k h hv hf
    refine ⟨rfl, ?_, fun q hq => ?_⟩
    · show h.next ≠ vRef
      omega
    · exact alloc_store_ne _ _ (show q ≠ h.next by omega)
  · intro bin vRef fRef iRef h hv hf hi
    refine ⟨rfl, ?_, ?_, fun q hq => ?_⟩
    · show h.next ≠ vRef
      omega
    · show h.next ≠ iRef
      omega
    · have hne : q ≠ h.next := by omega
      rw [surface_to_binary_volume_st_eq]
      dsimp only
      rw [modifyRef_store_ne _ _ _ hne, alloc_store_ne _ _ hne]

/-- Witness for C5 on a concrete two-array heap. -/
theorem operations_do_not_mutate_inputs_witness :
    ((points_to_labels_st 0 1 ⟨2, fun _ => ⟨[2, 2], fun _ => 0⟩⟩).2.1 = 2 ∧
      ∀ q < 2, ((points_to_labels_st 0 1 ⟨2, fun _ => ⟨[2, 2], fun _ => 0⟩⟩).2.2).store q
        = (⟨2, fun _ => ⟨[2, 2], fun _ => 0⟩⟩ : Heap).store q) ∧
    (isotropic_scale_surface_st 0 1 none 3 ⟨2, fun _ => ⟨[2, 2], fun _ => 0⟩⟩).1.1 = 2 := by
  obtain ⟨ha, -, -, hd⟩ := operations_do_not_mutate_inputs.1 0 1
    ⟨2, fun _ => ⟨[2, 2], fun _ => 0⟩⟩ (by decide) (by decide)
  exact ⟨⟨ha, hd⟩, (operations_do_not_mutate_inputs.2.1 0 1 none 3
    ⟨2, fun _ => ⟨[2, 2], fun _ => 0⟩⟩ (by decide) (by decide)).1⟩

/-- C6: every operation is a deterministic function of its inputs (relative
to the wrapped-library routine, which is a fixed function parameter): the
two samplers agree on any two calls with equal surface and parameters, and
running points_to_labels twice in sequence on the same input references
yields the same error outcome and the same output-array content. -/
theorem operations_deterministic :
    (∀ (lib : TriangleMesh → ℕ → PointCloud) (s₁ s₂ : Surface) (n₁ n₂ : ℕ),
      s₁ = s₂ → n₁ = n₂ →
      sample_points_uniformly lib s₁ n₁ = sample_points_uniformly lib s₂ n₂)
    ∧ (∀ (lib : TriangleMesh → ℕ → ℚ → PointCloud) (s₁ s₂ : Surface) (n₁ n₂ : ℕ)
        (f₁ f₂ : ℚ),
      s₁ = s₂ → n₁ = n₂ → f₁ = f₂ →
      sample_points_poisson_disk lib s₁ n₁ f₁ = sample_points_poisson_disk lib s₂ n₂ f₂)
    ∧ (∀ (pRef iRef : ℕ) (h : Heap), pRef < h.next → iRef < h.next →
      (points_to_labels_st pRef iRef ((points_to_labels_st pRef iRef h).2.2)).1
        = (points_to_labels_st pRef iRef h).1 ∧
      ((points_to_labels_st pRef iRef ((points_to_labels_st pRef iRef h).2.2)).2.2).store
          ((points_to_labels_st pRef iRef ((points_to_labels_st pRef iRef h).2.2)).2.1)
        = ((points_to_labels_st pRef iRef h).2.2).store
            ((points_to_labels_st pRef iRef h).2.1)) := by
  refine ⟨?_, ?_, ?_⟩
  · intro lib s₁ s₂ n₁ n₂ hs hn
    rw [hs, hn]
  · intro lib s₁ s₂ n₁ n₂ f₁ f₂ hs hn hf
    rw [hs, hn, hf]
  · intro pRef iRef h hp hi
    have hsh : ((points_to_labels_st pRef iRef h).2.2).store iRef = h.store iRef :=
      points_to_labels_st_frame pRef iRef h iRef hi
    have hpt : ((points_to_labels_st pRef iRef h).2.2).store pRef = h.store pRef :=
      points_to_labels_st_frame pRef iRef h pRef hp
    set H1 := (points_to_labels_st pRef iRef h).2.2 with hH1
    rw [points_to_labels_st_eq pRef iRef H1, points_to_labels_st_eq pRef iRef h]
    rw [hsh, hpt]
    exact go_st_congr _ _ 0 H1.next h.next _ _
      (by rw [alloc_store_self, alloc_store_self])

/-- Witness for C6: a concrete repeated call. -/
theorem operations_deterministic_witness :
    sample_points_uniformly (fun _ _ => ⟨⟨[]⟩⟩) ⟨[], [], none⟩ 5
      = sample_points_uniformly (fun _ _ => ⟨⟨[]⟩⟩) ⟨[], [], none⟩ 5 ∧
    (points_to_labels_st 0 1
        ((points_to_labels_st 0 1 ⟨3, fun _ => ⟨[2, 2], fun _ => 0⟩⟩).2.2)).1
      = (points_to_labels_st 0 1 ⟨3, fun _ => ⟨[2, 2], fun _ => 0⟩⟩).1 :=
  ⟨operations_deterministic.1 _ _ _ _ _ rfl rfl,
   (operations_deterministic.2.2 0 1 ⟨3, fun _ => ⟨[2, 2], fun _ => 0⟩⟩
      (by decide) (by decide)).1⟩

end Nppas
